import Mathlib

/-
  Verification development for the GameOfLife repository.

  The C++ sources (Renderer.cpp in two revisions, GameOfLife.cpp, the GLSL
  shaders draw.vert / draw.frag / compute.frag) are shallowly embedded over ℚ:
  every C++ float/double and GLSL float is modelled as an exact rational, ints
  as ℕ/ℤ, C++ int-casts of non-negative floats as floor (general casts as
  truncation toward zero).  Stateful methods become functions from a state
  record to a new state record; fallible paths return Option.
-/

/-- GLSL clamp(x, lo, hi). -/
def clampQ (x lo hi : ℚ) : ℚ := max lo (min x hi)

/-- GLSL mix(a, b, t); also the helper `mix` defined in Renderer.cpp. -/
def mixQ (a b t : ℚ) : ℚ := a * (1 - t) + b * t

/-- GLSL smoothstep(e0, e1, x): u = clamp((x-e0)/(e1-e0), 0, 1); u*u*(3-2u). -/
def smoothstepQ (e0 e1 x : ℚ) : ℚ :=
  let u := clampQ ((x - e0) / (e1 - e0)) 0 1
  u * u * (3 - 2 * u)

/-- C++ cast from a floating value to int: truncation toward zero. -/
def truncInt (q : ℚ) : ℤ := if q < 0 then Int.ceil q else Int.floor q

/-- The mutable state of the `Renderer` class: window size, grid size
(GRID_WIDTH/GRID_HEIGHT), pan, zoom and the cached maxZoom bound. -/
structure RendererState where
  windowWidth : ℕ
  windowHeight : ℕ
  GRID_WIDTH : ℕ
  GRID_HEIGHT : ℕ
  panX : ℚ
  panY : ℚ
  zoom : ℚ
  maxZoom : ℚ

/-- u_resolution.x / u_resolution.y (draw.vert / draw.frag / Renderer.cpp). -/
def windowAspect (s : RendererState) : ℚ :=
  (s.windowWidth : ℚ) / (s.windowHeight : ℚ)

/-- u_gridResolution.x / u_gridResolution.y. -/
def gridAspect (s : RendererState) : ℚ :=
  (s.GRID_WIDTH : ℚ) / (s.GRID_HEIGHT : ℚ)

/-- The x component of fitScale in draw.vert (and of `scale` in both
revisions of Renderer::screenToTextureCoords). -/
def fitScaleX (s : RendererState) : ℚ :=
  if windowAspect s > gridAspect s then gridAspect s / windowAspect s else 1

/-- The y component of fitScale. -/
def fitScaleY (s : RendererState) : ℚ :=
  if windowAspect s > gridAspect s then 1 else windowAspect s / gridAspect s

/-- transitionZoom = 1.0 / min(fitScale.x, fitScale.y) in draw.vert. -/
def transitionZoom (s : RendererState) : ℚ :=
  1 / min (fitScaleX s) (fitScaleY s)

/-- t = smoothstep(1.0, transitionZoom, u_zoom) in draw.vert / draw.frag. -/
def tFactor (s : RendererState) : ℚ :=
  smoothstepQ 1 (transitionZoom s) s.zoom

/-- finalScale.x = mix(fitScale, fillScale, t).x with fillScale = (1,1). -/
def finalScaleX (s : RendererState) : ℚ := mixQ (fitScaleX s) 1 (tFactor s)

/-- finalScale.y = mix(fitScale, fillScale, t).y. -/
def finalScaleY (s : RendererState) : ℚ := mixQ (fitScaleY s) 1 (tFactor s)

/-- The forward transform of shaders/draw.vert: a screen position `uv` in
[0,1]² (y bottom-up) is mapped to v_texCoord = ((uv-0.5)*finalScale+0.5)/zoom
+ pan. -/
def drawVertTexCoord (s : RendererState) (uv : ℚ × ℚ) : ℚ × ℚ :=
  ( ((uv.1 - 1/2) * finalScaleX s + 1/2) / s.zoom + s.panX,
    ((uv.2 - 1/2) * finalScaleY s + 1/2) / s.zoom + s.panY )

/-- The letterbox/pillarbox test of shaders/draw.frag:
isInBars = |v_unscaledUv - 0.5| > finalScale*0.5 on either axis. -/
def isInBars (s : RendererState) (uv : ℚ × ℚ) : Prop :=
  |uv.1 - 1/2| > finalScaleX s / 2 ∨ |uv.2 - 1/2| > finalScaleY s / 2

instance (s : RendererState) (uv : ℚ × ℚ) : Decidable (isInBars s uv) := by
  unfold isInBars; infer_instance

/-- Renderer::screenToTextureCoords of the revision in unnamed/part_002 (the
one consistent with GameOfLife.cpp, which calls its resizeGrid): normalizes to
[-1,1], rejects clicks in the bars with the sentinel (-1,-1), divides by the
fit scale and applies zoom and pan. -/
def screenToTextureCoords_head (s : RendererState) (screenX screenY : ℚ) : ℚ × ℚ :=
  let normX := screenX / (s.windowWidth : ℚ) * 2 - 1
  let normY := 1 - screenY / (s.windowHeight : ℚ) * 2
  let scaleX := fitScaleX s
  let scaleY := fitScaleY s
  if |normX| > |scaleX| ∨ |normY| > |scaleY| then (-1, -1)
  else
    let unscaledX := normX / scaleX
    let unscaledY := normY / scaleY
    let quadUvX := (unscaledX + 1) / 2
    let quadUvY := (unscaledY + 1) / 2
    (quadUvX / s.zoom + s.panX, quadUvY / s.zoom + s.panY)

/-- Renderer::handleMouseDrawing (unnamed/part_002 revision), reduced to the
grid cell it computes: none when the click is rejected, otherwise the cell
(int casts of texCoord * gridResolution). -/
def mouseCell_head (s : RendererState) (screenX screenY : ℚ) : Option (ℤ × ℤ) :=
  let t := screenToTextureCoords_head s screenX screenY
  if t.1 < 0 ∨ t.1 > 1 ∨ t.2 < 0 ∨ t.2 > 1 then none
  else some (truncInt (t.1 * (s.GRID_WIDTH : ℚ)), truncInt (t.2 * (s.GRID_HEIGHT : ℚ)))

/-- Renderer::screenToTextureCoords of the revision in src/Renderer.cpp:
returns correctedUV = (norm - 0.5) * fitScale + 0.5 (multiplication), with the
degenerate-window guard. -/
def screenToTextureCoords_fix (s : RendererState) (screenX screenY : ℚ) : ℚ × ℚ :=
  if s.windowWidth = 0 ∨ s.windowHeight = 0 then (-1, -1)
  else
    let normX := screenX / (s.windowWidth : ℚ)
    let normY := 1 - screenY / (s.windowHeight : ℚ)
    ((normX - 1/2) * fitScaleX s + 1/2, (normY - 1/2) * fitScaleY s + 1/2)

/-- Renderer::handleMouseDrawing (src/Renderer.cpp revision), reduced to the
grid cell it computes: guard correctedUv in [0,1]², then
finalTexCoord = correctedUv / zoom + pan and the int casts. -/
def mouseCell_fix (s : RendererState) (screenX screenY : ℚ) : Option (ℤ × ℤ) :=
  let c := screenToTextureCoords_fix s screenX screenY
  if c.1 < 0 ∨ c.1 > 1 ∨ c.2 < 0 ∨ c.2 > 1 then none
  else
    let tx := c.1 / s.zoom + s.panX
    let ty := c.2 / s.zoom + s.panY
    some (truncInt (tx * (s.GRID_WIDTH : ℚ)), truncInt (ty * (s.GRID_HEIGHT : ℚ)))

/-- Renderer::zoomAt of the unnamed/part_002 revision: capture the
(un-aspect-corrected) texture coordinate under the cursor, scale and clamp
zoom into [0.1, maxZoom], recapture, and shift pan by the difference. -/
def zoomAt_head (s : RendererState) (screenX screenY zoomFactor : ℚ) : RendererState :=
  let invertedY := (s.windowHeight : ℚ) - screenY
  let texXBefore := screenX / (s.windowWidth : ℚ) / s.zoom + s.panX
  let texYBefore := invertedY / (s.windowHeight : ℚ) / s.zoom + s.panY
  let zoomNew := max (1/10) (min (s.zoom * zoomFactor) s.maxZoom)
  let texXAfter := screenX / (s.windowWidth : ℚ) / zoomNew + s.panX
  let texYAfter := invertedY / (s.windowHeight : ℚ) / zoomNew + s.panY
  { s with zoom := zoomNew,
           panX := s.panX + (texXBefore - texXAfter),
           panY := s.panY + (texYBefore - texYAfter) }

/-- Spec-side construction for the round-trip property: the screen pixel
(top-down y) at which the forward transform of draw.vert shows the center of
grid cell (x, y); algebraic inverse of drawVertTexCoord at the cell center. -/
def projectCellToScreen (s : RendererState) (x y : ℕ) : ℚ × ℚ :=
  let texX := ((x : ℚ) + 1/2) / (s.GRID_WIDTH : ℚ)
  let texY := ((y : ℚ) + 1/2) / (s.GRID_HEIGHT : ℚ)
  let uvX := ((texX - s.panX) * s.zoom - 1/2) / finalScaleX s + 1/2
  let uvY := ((texY - s.panY) * s.zoom - 1/2) / finalScaleY s + 1/2
  (uvX * (s.windowWidth : ℚ), (1 - uvY) * (s.windowHeight : ℚ))

/-- The rotation switch of Renderer::drawPattern: one integer quarter turn
(dx,dy) -> (-dy,dx) per unit of rotation, cases 1/2/3, default unrotated. -/
def rotateOffset (rotation : ℤ) (dx dy : ℤ) : ℤ × ℤ :=
  if rotation = 1 then (-dy, dx)
  else if rotation = 2 then (-dx, -dy)
  else if rotation = 3 then (dy, -dx)
  else (dx, dy)

/-- Renderer::drawPattern, reduced to the list of cells it writes alive:
rotate each offset, add the center, keep it only if inside the W x H bounds. -/
def drawPattern (W H : ℕ) (centerX centerY : ℤ) (pattern : List (ℤ × ℤ))
    (rotation : ℤ) : List (ℤ × ℤ) :=
  pattern.filterMap (fun p =>
    let r := rotateOffset rotation p.1 p.2
    let finalX := centerX + r.1
    let finalY := centerY + r.2
    if 0 ≤ finalX ∧ finalX < (W : ℤ) ∧ 0 ≤ finalY ∧ finalY < (H : ℤ) then
      some (finalX, finalY)
    else none)

/-- The gliderPattern constant of Renderer::handleMouseDrawing. -/
def gliderPattern : List (ℤ × ℤ) := [(1, 0), (2, 1), (0, 2), (1, 2), (2, 2)]

/-- The simulation-control state of the GameOfLife class (GameOfLife.h):
isPaused, limitSpeed, updatesPerSecond, timeOfLastUpdate. -/
structure GState where
  isPaused : Bool
  limitSpeed : Bool
  updatesPerSecond : ℚ
  timeOfLastUpdate : ℚ

/-- GameOfLife::promptAndSetSpeed: pause, read a speed from the console
(`none` models a failed parse), and only for a good parse with value > 0 set
updatesPerSecond and force limitSpeed on; otherwise report an input error and
keep the previous values.  The returned Bool is true iff the invalid-input
error was reported. -/
def promptAndSetSpeed (s : GState) (input : Option ℚ) : GState × Bool :=
  let s1 := { s with isPaused := true }
  match input with
  | some v =>
      if v > 0 then
        ({ s1 with updatesPerSecond := v, limitSpeed := true }, false)
      else (s1, true)
  | none => (s1, true)

/-- One iteration of the speed-control logic in GameOfLife::mainLoop: run a
simulation step iff not paused and (speed limit off, or enough time elapsed);
record the step time when a step runs.  The Bool is true iff
runSimulationStep was executed on this tick. -/
def mainLoopTick (s : GState) (currentTime : ℚ) : GState × Bool :=
  if s.isPaused = false then
    if s.limitSpeed = false ∨ currentTime - s.timeOfLastUpdate ≥ 1 / s.updatesPerSecond then
      ({ s with timeOfLastUpdate := currentTime }, true)
    else (s, false)
  else (s, false)

/-- GLSL texture() lookup on a GL_REPEAT, GL_NEAREST texture of W x H texels
holding the board: wrap the coordinate into [0,1) by taking the fractional
part, then select texel floor(frac * size) on each axis
(shaders/compute.frag getCellState). -/
def getCellState (W H : ℕ) (b : ℕ → ℕ → ℚ) (u v : ℚ) : ℚ :=
  b (Int.floor (Int.fract u * (W : ℚ))).toNat (Int.floor (Int.fract v * (H : ℚ))).toNat

/-- The texture coordinate of the fragment computing cell (x, y): the compute
pass rasterizes a full-screen quad over a W x H viewport, so the fragment for
cell (x, y) carries the interpolated v_texCoord at its pixel center. -/
def fragTexCoord (N : ℕ) (x : ℕ) : ℚ := ((x : ℚ) + 1/2) / (N : ℚ)

/-- The loop body of shaders/compute.frag: the sample at
v_texCoord + vec2(dx, dy) * pixel, with pixel = 1 / textureSize. -/
def sampleAt (W H : ℕ) (b : ℕ → ℕ → ℚ) (x y : ℕ) (dx dy : ℤ) : ℚ :=
  getCellState W H b (fragTexCoord W x + (dx : ℚ) * (1 / (W : ℚ)))
    (fragTexCoord H y + (dy : ℚ) * (1 / (H : ℚ)))

/-- main() of shaders/compute.frag at the fragment of cell (x, y): sum the
int casts of all nine samples at v_texCoord + (dx,dy)*pixel, subtract the
current cell, and apply the life/death rules on the float state. -/
def computeFragMain (W H : ℕ) (b : ℕ → ℕ → ℚ) (x y : ℕ) : ℚ :=
  let sample : ℤ → ℤ → ℚ := sampleAt W H b x y
  let nineSum : ℤ :=
    truncInt (sample (-1) (-1)) + truncInt (sample 0 (-1)) + truncInt (sample 1 (-1)) +
    truncInt (sample (-1) 0) + truncInt (sample 0 0) + truncInt (sample 1 0) +
    truncInt (sample (-1) 1) + truncInt (sample 0 1) + truncInt (sample 1 1)
  let currentState : ℚ := getCellState W H b (fragTexCoord W x) (fragTexCoord H y)
  let aliveNeighbors : ℤ := nineSum - truncInt currentState
  if 1/2 < currentState ∧ (aliveNeighbors = 2 ∨ aliveNeighbors = 3) then 1
  else if currentState < 1/2 ∧ aliveNeighbors = 3 then 1
  else 0

/-- Toroidal index: coordinate k taken modulo the positive dimension N. -/
def wrapIdx (N : ℕ) (k : ℤ) : ℕ := (k % (N : ℤ)).toNat

/-- Spec-side cell lookup on the toroidal W x H grid of Boolean states. -/
def specAlive (W H : ℕ) (bb : ℕ → ℕ → Bool) (x y : ℤ) : Bool :=
  bb (wrapIdx W x) (wrapIdx H y)

/-- Spec-side neighbor count: the sum over the eight Moore neighbors, with
coordinates wrapped modulo (W, H). -/
def specNeighbors (W H : ℕ) (bb : ℕ → ℕ → Bool) (x y : ℕ) : ℤ :=
  (if specAlive W H bb ((x : ℤ) - 1) ((y : ℤ) - 1) then 1 else 0) +
  (if specAlive W H bb (x : ℤ) ((y : ℤ) - 1) then 1 else 0) +
  (if specAlive W H bb ((x : ℤ) + 1) ((y : ℤ) - 1) then 1 else 0) +
  (if specAlive W H bb ((x : ℤ) - 1) (y : ℤ) then 1 else 0) +
  (if specAlive W H bb ((x : ℤ) + 1) (y : ℤ) then 1 else 0) +
  (if specAlive W H bb ((x : ℤ) - 1) ((y : ℤ) + 1) then 1 else 0) +
  (if specAlive W H bb (x : ℤ) ((y : ℤ) + 1) then 1 else 0) +
  (if specAlive W H bb ((x : ℤ) + 1) ((y : ℤ) + 1) then 1 else 0)

/-- The Game of Life rule as stated in the specification:
alive with 2 or 3 neighbors survives, dead with exactly 3 is born. -/
def lifeNext (alive : Bool) (n : ℤ) : Bool :=
  if alive then decide (n = 2 ∨ n = 3) else decide (n = 3)

/-- The camera state exhibiting the scale divergence: 800x400 window,
200x200 grid, identity pan, zoom 2 (maxZoom 20 as set by the constructor). -/
def s1bug : RendererState := ⟨800, 400, 200, 200, 0, 0, 2, 20⟩

/-- C1: the claim fails on the code.  At window 800x400, grid 200x200,
pan (0,0), zoom 2, the render path of shaders/draw.vert applies
finalScale.x = 1 (smoothstep fit-to-fill), while both revisions of
Renderer::screenToTextureCoords use the plain fit scale (1/2): the claimed
equality of the scales is false, and the screen-to-texture maps of the two
paths disagree at screen point (600, 200): forward 3/8, part_002 inverse 1/2,
src/Renderer.cpp inverse 5/16. -/
theorem renderScale_vs_inverseScale_divergence :
    finalScaleX s1bug = 1 ∧ fitScaleX s1bug = 1/2 ∧
    (drawVertTexCoord s1bug (3/4, 1/2)).1 = 3/8 ∧
    (screenToTextureCoords_head s1bug 600 200).1 = 1/2 ∧
    (screenToTextureCoords_fix s1bug 600 200).1 / s1bug.zoom + s1bug.panX = 5/16 := by
  refine ⟨?_, ?_, ?_, ?_, ?_⟩ <;>
    norm_num [finalScaleX, finalScaleY, mixQ, tFactor, smoothstepQ, clampQ, transitionZoom,
      fitScaleX, fitScaleY, windowAspect, gridAspect, drawVertTexCoord,
      screenToTextureCoords_head, screenToTextureCoords_fix, s1bug, abs_of_nonneg]

/-- C6: after Renderer::zoomAt (unnamed/part_002 revision, the one holding a
maxZoom field), the zoom lies in [0.1, max(W,H)/10], provided maxZoom holds
the value max(W,H)/10 installed by the constructor / resizeGrid and the grid
has at least one cell on its larger axis. -/
theorem zoomAt_clamped (s : RendererState) (screenX screenY zoomFactor : ℚ)
    (hmax : s.maxZoom = ((max s.GRID_WIDTH s.GRID_HEIGHT : ℕ) : ℚ) / 10)
    (hdim : 1 ≤ max s.GRID_WIDTH s.GRID_HEIGHT) :
    1/10 ≤ (zoomAt_head s screenX screenY zoomFactor).zoom ∧
    (zoomAt_head s screenX screenY zoomFactor).zoom ≤
      ((max s.GRID_WIDTH s.GRID_HEIGHT : ℕ) : ℚ) / 10 := by
  have hb : (1 : ℚ) ≤ ((max s.GRID_WIDTH s.GRID_HEIGHT : ℕ) : ℚ) := by
    exact_mod_cast hdim
  constructor
  · exact le_max_left _ _
  · show max (1/10) (min (s.zoom * zoomFactor) s.maxZoom) ≤ _
    apply max_le
    · linarith
    · rw [hmax] at *
      exact min_le_right _ _

/-- C6 witness: with a 200x200 grid (maxZoom = 20) and zoom 5, a zoom-in by
factor 100 is clamped into [0.1, 20]. -/
theorem zoomAt_clamped_witness :
    1/10 ≤ (zoomAt_head ⟨800, 800, 200, 200, 0, 0, 5, 20⟩ 0 0 100).zoom ∧
    (zoomAt_head ⟨800, 800, 200, 200, 0, 0, 5, 20⟩ 0 0 100).zoom ≤
      ((max 200 200 : ℕ) : ℚ) / 10 :=
  zoomAt_clamped ⟨800, 800, 200, 200, 0, 0, 5, 20⟩ 0 0 100 (by norm_num) (by norm_num)

/-- C7: stamping the 5-cell glider pattern at center (10,10) with rotation 1
writes alive exactly the cells at the quarter-turn offsets
(0,1),(-1,2),(-2,0),(-2,1),(-2,2) added to the center, here on the default
200x200 grid where all five land in bounds. -/
theorem drawPattern_glider_rot1 :
    drawPattern 200 200 10 10 gliderPattern 1 =
      [(10, 11), (9, 12), (8, 10), (8, 11), (8, 12)] := by
  simp [drawPattern, gliderPattern, rotateOffset, List.filterMap]

/-- C8 counterexample: with the simulation running (isPaused = false), a
rejected speed request (value -5) leaves updatesPerSecond and limitSpeed
intact and reports the error, but it does change further simulation state:
isPaused flips to true (GameOfLife::promptAndSetSpeed pauses before
validating), so "no other simulation state changes" is false as stated. -/
theorem promptAndSetSpeed_reject_pauses :
    (promptAndSetSpeed ⟨false, true, 30, 0⟩ (some (-5))).1.isPaused = true ∧
    (⟨false, true, 30, 0⟩ : GState).isPaused = false ∧
    (promptAndSetSpeed ⟨false, true, 30, 0⟩ (some (-5))).1.updatesPerSecond = 30 ∧
    (promptAndSetSpeed ⟨false, true, 30, 0⟩ (some (-5))).2 = true := by
  refine ⟨?_, rfl, ?_, ?_⟩ <;> norm_num [promptAndSetSpeed]

/-- C8 (amended): a non-positive or unparseable speed request is rejected:
updatesPerSecond, limitSpeed and timeOfLastUpdate keep their prior values, the
input error is reported, and the only other change is that the simulation is
paused (the pause happens when the prompt opens, before validation); in
particular updatesPerSecond stays positive. -/
theorem promptAndSetSpeed_reject_keeps_speed (s : GState) (input : Option ℚ)
    (hbad : input = none ∨ ∃ v, input = some v ∧ v ≤ 0) :
    (promptAndSetSpeed s input).1.updatesPerSecond = s.updatesPerSecond ∧
    (promptAndSetSpeed s input).1.limitSpeed = s.limitSpeed ∧
    (promptAndSetSpeed s input).1.timeOfLastUpdate = s.timeOfLastUpdate ∧
    (promptAndSetSpeed s input).2 = true ∧
    (promptAndSetSpeed s input).1.isPaused = true ∧
    (0 < s.updatesPerSecond → 0 < (promptAndSetSpeed s input).1.updatesPerSecond) := by
  rcases hbad with h | ⟨v, hv, hvle⟩
  · subst h
    simp [promptAndSetSpeed]
  · subst hv
    have : ¬ v > 0 := not_lt.mpr hvle
    simp [promptAndSetSpeed, this]

/-- C8 witness: rejecting the request `some (-1)` from a running state keeps
speed 30 and limitSpeed, reports the error and pauses. -/
theorem promptAndSetSpeed_reject_witness :
    (promptAndSetSpeed ⟨false, true, 30, 7⟩ (some (-1))).1.updatesPerSecond = 30 ∧
    (promptAndSetSpeed ⟨false, true, 30, 7⟩ (some (-1))).1.limitSpeed = true ∧
    (promptAndSetSpeed ⟨false, true, 30, 7⟩ (some (-1))).1.timeOfLastUpdate = 7 ∧
    (promptAndSetSpeed ⟨false, true, 30, 7⟩ (some (-1))).2 = true ∧
    (promptAndSetSpeed ⟨false, true, 30, 7⟩ (some (-1))).1.isPaused = true ∧
    (0 < (30:ℚ) → 0 < (promptAndSetSpeed ⟨false, true, 30, 7⟩ (some (-1))).1.updatesPerSecond) :=
  promptAndSetSpeed_reject_keeps_speed ⟨false, true, 30, 7⟩ (some (-1))
    (Or.inr ⟨-1, rfl, by norm_num⟩)

/-- C9: on a tick of GameOfLife::mainLoop, a paused simulation never steps;
running with the speed limit on, it steps exactly when
currentTime - timeOfLastUpdate has reached 1/updatesPerSecond, recording the
step time; running with the limit off it steps on every tick. -/
theorem mainLoopTick_step_iff (s : GState) (currentTime : ℚ) :
    (s.isPaused = true → (mainLoopTick s currentTime).2 = false ∧
      (mainLoopTick s currentTime).1 = s) ∧
    (s.isPaused = false → s.limitSpeed = true →
      ((mainLoopTick s currentTime).2 = true ↔
        1 / s.updatesPerSecond ≤ currentTime - s.timeOfLastUpdate) ∧
      ((mainLoopTick s currentTime).2 = true →
        (mainLoopTick s currentTime).1.timeOfLastUpdate = currentTime)) ∧
    (s.isPaused = false → s.limitSpeed = false →
      (mainLoopTick s currentTime).2 = true ∧
      (mainLoopTick s currentTime).1.timeOfLastUpdate = currentTime) := by
  refine ⟨fun hp => ?_, fun hp hl => ?_, fun hp hl => ?_⟩
  · simp [mainLoopTick, hp]
  · constructor
    · simp only [mainLoopTick, hp, hl, ge_iff_le, one_div]
      by_cases hle : s.updatesPerSecond⁻¹ ≤ currentTime - s.timeOfLastUpdate
      · simp [hle]
      · simp [hle]
    · intro hstep
      simp only [mainLoopTick, hp, hl, ge_iff_le, one_div] at hstep ⊢
      by_cases hle : s.updatesPerSecond⁻¹ ≤ currentTime - s.timeOfLastUpdate
      · simp [hle]
      · simp [hle] at hstep
  · simp [mainLoopTick, hp, hl]

/-- C9 witness: a paused state does not step. -/
theorem mainLoopTick_step_witness :
    (mainLoopTick ⟨true, true, 30, 0⟩ 5).2 = false ∧
    (mainLoopTick ⟨true, true, 30, 0⟩ 5).1 = ⟨true, true, 30, 0⟩ :=
  (mainLoopTick_step_iff ⟨true, true, 30, 0⟩ 5).1 rfl

/-- C10: a successful set-specific-speed request (positive value) updates
updatesPerSecond and also forces limitSpeed to true, whatever its prior
value - the side effect the spec leaves unstated. -/
theorem promptAndSetSpeed_valid_forces_limit (s : GState) (v : ℚ) (hv : 0 < v) :
    (promptAndSetSpeed s (some v)).1.limitSpeed = true ∧
    (promptAndSetSpeed s (some v)).1.updatesPerSecond = v ∧
    (promptAndSetSpeed s (some v)).2 = false := by
  simp [promptAndSetSpeed, hv]

/-- C10 witness: from a state with the limit toggled off, setting speed 7
re-enables the limit. -/
theorem promptAndSetSpeed_valid_witness :
    (promptAndSetSpeed ⟨false, false, 30, 0⟩ (some 7)).1.limitSpeed = true ∧
    (promptAndSetSpeed ⟨false, false, 30, 0⟩ (some 7)).1.updatesPerSecond = 7 ∧
    (promptAndSetSpeed ⟨false, false, 30, 0⟩ (some 7)).2 = false :=
  promptAndSetSpeed_valid_forces_limit ⟨false, false, 30, 0⟩ 7 (by norm_num)

theorem windowAspect_pos (s : RendererState) (hww : 0 < s.windowWidth)
    (hwh : 0 < s.windowHeight) : 0 < windowAspect s :=
  div_pos (by exact_mod_cast hww) (by exact_mod_cast hwh)

theorem gridAspect_pos (s : RendererState) (hgw : 0 < s.GRID_WIDTH)
    (hgh : 0 < s.GRID_HEIGHT) : 0 < gridAspect s :=
  div_pos (by exact_mod_cast hgw) (by exact_mod_cast hgh)

theorem fitScaleX_pos (s : RendererState) (hwa : 0 < windowAspect s)
    (hga : 0 < gridAspect s) : 0 < fitScaleX s := by
  unfold fitScaleX
  split
  · exact div_pos hga hwa
  · exact one_pos

theorem fitScaleY_pos (s : RendererState) (hwa : 0 < windowAspect s)
    (hga : 0 < gridAspect s) : 0 < fitScaleY s := by
  unfold fitScaleY
  split
  · exact one_pos
  · exact div_pos hwa hga

theorem fitScaleX_le_one (s : RendererState) (hwa : 0 < windowAspect s) :
    fitScaleX s ≤ 1 := by
  unfold fitScaleX
  split
  · rename_i h
    exact le_of_lt ((div_lt_one hwa).mpr h)
  · exact le_refl 1

theorem fitScaleY_le_one (s : RendererState) (hga : 0 < gridAspect s) :
    fitScaleY s ≤ 1 := by
  unfold fitScaleY
  split
  · exact le_refl 1
  · rename_i h
    exact (div_le_one hga).mpr (not_lt.mp h)

theorem tFactor_nonneg (s : RendererState) : 0 ≤ tFactor s := by
  unfold tFactor smoothstepQ clampQ
  have h0 : (0:ℚ) ≤ max 0 (min ((s.zoom - 1) / (transitionZoom s - 1)) 1) := le_max_left _ _
  have h1 : max 0 (min ((s.zoom - 1) / (transitionZoom s - 1)) 1) ≤ 1 :=
    max_le zero_le_one (min_le_right _ _)
  have := mul_nonneg (mul_nonneg h0 h0)
    (by linarith : (0:ℚ) ≤ 3 - 2 * max 0 (min ((s.zoom - 1) / (transitionZoom s - 1)) 1))
  simpa using this

theorem fitScaleX_le_finalScaleX (s : RendererState) (hle1 : fitScaleX s ≤ 1) :
    fitScaleX s ≤ finalScaleX s := by
  unfold finalScaleX mixQ
  nlinarith [tFactor_nonneg s]

theorem fitScaleY_le_finalScaleY (s : RendererState) (hle1 : fitScaleY s ≤ 1) :
    fitScaleY s ≤ finalScaleY s := by
  unfold finalScaleY mixQ
  nlinarith [tFactor_nonneg s]

/-- If a screen coordinate is farther than c/2 from the center, its [-1,1]
normalization is farther than b from 0, for any 0 < b ≤ c. -/
theorem norm_gt_of_bar (a b c : ℚ) (hbc : b ≤ c) (hb : 0 < b)
    (h : c / 2 < |a - 1/2|) : |b| < |a * 2 - 1| := by
  have h2 : a * 2 - 1 = 2 * (a - 1/2) := by ring
  rw [h2, abs_mul, abs_of_pos hb]
  have : |(2:ℚ)| = 2 := by norm_num
  rw [this]
  linarith

/-- C4: the inverse transform of unnamed/part_002 rejects every screen point
whose unscaled UV is farther than finalScale/2 from the center on either axis
(all letterbox/pillarbox points, since finalScale is at least fitScale):
screenToTextureCoords returns the sentinel and handleMouseDrawing writes no
cell. -/
theorem barRegion_rejected (s : RendererState) (screenX screenY : ℚ)
    (hww : 0 < s.windowWidth) (hwh : 0 < s.windowHeight)
    (hgw : 0 < s.GRID_WIDTH) (hgh : 0 < s.GRID_HEIGHT)
    (hbar : finalScaleX s / 2 < |screenX / (s.windowWidth : ℚ) - 1/2| ∨
            finalScaleY s / 2 < |(1 - screenY / (s.windowHeight : ℚ)) - 1/2|) :
    screenToTextureCoords_head s screenX screenY = (-1, -1) ∧
    mouseCell_head s screenX screenY = none := by
  have hwa := windowAspect_pos s hww hwh
  have hga := gridAspect_pos s hgw hgh
  have hfx := fitScaleX_pos s hwa hga
  have hfy := fitScaleY_pos s hwa hga
  have hrej : |fitScaleX s| < |screenX / (s.windowWidth : ℚ) * 2 - 1| ∨
      |fitScaleY s| < |1 - screenY / (s.windowHeight : ℚ) * 2| := by
    rcases hbar with h | h
    · exact Or.inl (norm_gt_of_bar _ _ _ (fitScaleX_le_finalScaleX s
        (fitScaleX_le_one s hwa)) hfx h)
    · right
      have hy : |1 - screenY / (s.windowHeight : ℚ) * 2| =
          |(1 - screenY / (s.windowHeight : ℚ)) * 2 - 1| := by
        ring_nf
      rw [hy]
      exact norm_gt_of_bar _ _ _ (fitScaleY_le_finalScaleY s
        (fitScaleY_le_one s hga)) hfy h
  have hs : screenToTextureCoords_head s screenX screenY = (-1, -1) := by
    unfold screenToTextureCoords_head
    rw [if_pos]
    exact hrej
  refine ⟨hs, ?_⟩
  unfold mouseCell_head
  rw [hs]
  norm_num

/-- C4 witness: window 800x400, grid 200x200, zoom 1: the screen point
(50, 200) lies in the left pillarbox bar (|50/800 - 1/2| = 7/16 > 1/4 =
finalScale.x/2) and is rejected, producing no cell write. -/
theorem barRegion_rejected_witness :
    screenToTextureCoords_head ⟨800, 400, 200, 200, 0, 0, 1, 20⟩ 50 200 = (-1, -1) ∧
    mouseCell_head ⟨800, 400, 200, 200, 0, 0, 1, 20⟩ 50 200 = none :=
  barRegion_rejected ⟨800, 400, 200, 200, 0, 0, 1, 20⟩ 50 200
    (by norm_num) (by norm_num) (by norm_num) (by norm_num)
    (Or.inl (by
      norm_num [finalScaleX, mixQ, tFactor, smoothstepQ, clampQ, transitionZoom,
        fitScaleX, fitScaleY, windowAspect, gridAspect, abs_of_nonneg]))

theorem mixQ_one_one (t : ℚ) : mixQ 1 1 t = 1 := by
  unfold mixQ
  ring

theorem fitScaleX_eq_one_of_aspect_eq (s : RendererState)
    (hasp : windowAspect s = gridAspect s) : fitScaleX s = 1 := by
  unfold fitScaleX
  rw [if_neg]
  rw [hasp]
  exact lt_irrefl _

theorem fitScaleY_eq_one_of_aspect_eq (s : RendererState) (hga : 0 < gridAspect s)
    (hasp : windowAspect s = gridAspect s) : fitScaleY s = 1 := by
  unfold fitScaleY
  rw [if_neg, hasp]
  · exact div_self (ne_of_gt hga)
  · rw [hasp]
    exact lt_irrefl _

theorem finalScaleX_eq_one_of_aspect_eq (s : RendererState)
    (hasp : windowAspect s = gridAspect s) : finalScaleX s = 1 := by
  unfold finalScaleX
  rw [fitScaleX_eq_one_of_aspect_eq s hasp, mixQ_one_one]

theorem finalScaleY_eq_one_of_aspect_eq (s : RendererState) (hga : 0 < gridAspect s)
    (hasp : windowAspect s = gridAspect s) : finalScaleY s = 1 := by
  unfold finalScaleY
  rw [fitScaleY_eq_one_of_aspect_eq s hga hasp, mixQ_one_one]

theorem truncInt_natCast_add_half (x : ℕ) : truncInt ((x : ℚ) + 1/2) = (x : ℤ) := by
  unfold truncInt
  rw [if_neg (not_lt.mpr (by positivity))]
  rw [add_comm, Int.floor_add_nat]
  norm_num

/-- C2 (amended): with window aspect equal to grid aspect (finalScale = fit =
(1,1), any zoom), projecting a cell center to its screen pixel via the
forward transform of draw.vert and mapping that pixel back through
Renderer::screenToTextureCoords / handleMouseDrawing (unnamed/part_002)
recovers exactly the cell (x, y), whenever the click is accepted. -/
theorem roundTrip_exact_of_aspect_eq (s : RendererState) (x y : ℕ)
    (hww : 0 < s.windowWidth) (hwh : 0 < s.windowHeight)
    (hgw : 0 < s.GRID_WIDTH) (hgh : 0 < s.GRID_HEIGHT)
    (hasp : windowAspect s = gridAspect s) (hz : s.zoom ≠ 0)
    (hacc : (mouseCell_head s (projectCellToScreen s x y).1
        (projectCellToScreen s x y).2).isSome = true) :
    mouseCell_head s (projectCellToScreen s x y).1 (projectCellToScreen s x y).2
      = some ((x : ℤ), (y : ℤ)) := by
  have hga := gridAspect_pos s hgw hgh
  have hfx := fitScaleX_eq_one_of_aspect_eq s hasp
  have hfy := fitScaleY_eq_one_of_aspect_eq s hga hasp
  have hFx := finalScaleX_eq_one_of_aspect_eq s hasp
  have hFy := finalScaleY_eq_one_of_aspect_eq s hga hasp
  have hwwQ : (s.windowWidth : ℚ) ≠ 0 := by positivity
  have hwhQ : (s.windowHeight : ℚ) ≠ 0 := by positivity
  have hgwQ : (s.GRID_WIDTH : ℚ) ≠ 0 := by positivity
  have hghQ : (s.GRID_HEIGHT : ℚ) ≠ 0 := by positivity
  have hval : (((projectCellToScreen s x y).1 / (s.windowWidth : ℚ) * 2 - 1) /
        fitScaleX s + 1) / 2 / s.zoom + s.panX =
      ((x : ℚ) + 1/2) / (s.GRID_WIDTH : ℚ) := by
    rw [hfx]
    simp only [projectCellToScreen, hFx]
    field_simp
    ring
  have hvaly : ((1 - (projectCellToScreen s x y).2 / (s.windowHeight : ℚ) * 2) /
        fitScaleY s + 1) / 2 / s.zoom + s.panY =
      ((y : ℚ) + 1/2) / (s.GRID_HEIGHT : ℚ) := by
    rw [hfy]
    simp only [projectCellToScreen, hFy]
    field_simp
    ring
  by_cases hrej : |(projectCellToScreen s x y).1 / (s.windowWidth : ℚ) * 2 - 1| >
      |fitScaleX s| ∨
      |1 - (projectCellToScreen s x y).2 / (s.windowHeight : ℚ) * 2| > |fitScaleY s|
  · have hs : screenToTextureCoords_head s (projectCellToScreen s x y).1
        (projectCellToScreen s x y).2 = (-1, -1) := by
      unfold screenToTextureCoords_head
      rw [if_pos hrej]
    have hm : mouseCell_head s (projectCellToScreen s x y).1
        (projectCellToScreen s x y).2 = none := by
      unfold mouseCell_head
      rw [hs]
      norm_num
    rw [hm] at hacc
    simp at hacc
  · have hs : screenToTextureCoords_head s (projectCellToScreen s x y).1
        (projectCellToScreen s x y).2 =
        (((x : ℚ) + 1/2) / (s.GRID_WIDTH : ℚ), ((y : ℚ) + 1/2) / (s.GRID_HEIGHT : ℚ)) := by
      unfold screenToTextureCoords_head
      rw [if_neg hrej]
      rw [Prod.ext_iff]
      exact ⟨hval, hvaly⟩
    by_cases hguard : ((x : ℚ) + 1/2) / (s.GRID_WIDTH : ℚ) < 0 ∨
        ((x : ℚ) + 1/2) / (s.GRID_WIDTH : ℚ) > 1 ∨
        ((y : ℚ) + 1/2) / (s.GRID_HEIGHT : ℚ) < 0 ∨
        ((y : ℚ) + 1/2) / (s.GRID_HEIGHT : ℚ) > 1
    · have hm : mouseCell_head s (projectCellToScreen s x y).1
          (projectCellToScreen s x y).2 = none := by
        unfold mouseCell_head
        rw [hs]
        exact if_pos hguard
      rw [hm] at hacc
      simp at hacc
    · have hm : mouseCell_head s (projectCellToScreen s x y).1
          (projectCellToScreen s x y).2 =
          some (truncInt (((x : ℚ) + 1/2) / (s.GRID_WIDTH : ℚ) * (s.GRID_WIDTH : ℚ)),
                truncInt (((y : ℚ) + 1/2) / (s.GRID_HEIGHT : ℚ) * (s.GRID_HEIGHT : ℚ))) := by
        unfold mouseCell_head
        rw [hs]
        exact if_neg hguard
      rw [hm]
      rw [div_mul_cancel₀ _ hgwQ, div_mul_cancel₀ _ hghQ]
      rw [truncInt_natCast_add_half, truncInt_natCast_add_half]

/-- C2 witness: square 800x800 window over the square 200x200 grid at zoom 1,
pan (0,0): the round trip recovers cell (3, 7) exactly. -/
theorem roundTrip_exact_witness :
    mouseCell_head ⟨800, 800, 200, 200, 0, 0, 1, 20⟩
        (projectCellToScreen ⟨800, 800, 200, 200, 0, 0, 1, 20⟩ 3 7).1
        (projectCellToScreen ⟨800, 800, 200, 200, 0, 0, 1, 20⟩ 3 7).2
      = some (3, 7) :=
  roundTrip_exact_of_aspect_eq ⟨800, 800, 200, 200, 0, 0, 1, 20⟩ 3 7
    (by norm_num) (by norm_num) (by norm_num) (by norm_num)
    (by norm_num [windowAspect, gridAspect]) (by norm_num)
    (by norm_num [mouseCell_head, screenToTextureCoords_head, projectCellToScreen,
      finalScaleX, finalScaleY, fitScaleX, fitScaleY, mixQ, tFactor, smoothstepQ,
      clampQ, transitionZoom, windowAspect, gridAspect, abs_of_nonneg, abs_of_nonpos,
      truncInt])

/-- The camera state for the round-trip counterexample: 800x400 window,
200x200 grid, identity pan, zoom 2. -/
def s2bug : RendererState := ⟨800, 400, 200, 200, 0, 0, 2, 20⟩

/-- C2 counterexample: at window 800x400, grid 200x200, pan (0,0), zoom 2,
cell (0,50) is strictly inside the visible region: its screen point (4,198)
has unscaled UV (1/200, 101/200), which is not in the bars, and the forward
transform shows the cell center (1/400, 101/400), strictly inside the
texture.  Yet the inverse (unnamed/part_002) rejects that screen point - its
bar test uses fitScale = (1/2, 1) instead of finalScale = (1,1) - so the
round trip yields no cell instead of (0, 50). -/
theorem roundTrip_fails_at_zoom2 :
    projectCellToScreen s2bug 0 50 = (4, 198) ∧
    ¬ isInBars s2bug (1/200, 101/200) ∧
    drawVertTexCoord s2bug (1/200, 101/200) = (1/400, 101/400) ∧
    ((0:ℚ) < 1/400 ∧ (1/400:ℚ) < 1 ∧ (0:ℚ) < 101/400 ∧ (101/400:ℚ) < 1) ∧
    mouseCell_head s2bug 4 198 = none ∧
    mouseCell_head s2bug 4 198 ≠ some (0, 50) := by
  have hm : mouseCell_head s2bug 4 198 = none := by
    norm_num [mouseCell_head, screenToTextureCoords_head, fitScaleX, fitScaleY,
      windowAspect, gridAspect, s2bug, abs_of_nonneg, abs_of_nonpos]
  refine ⟨?_, ?_, ?_, by norm_num, hm, by simp [hm]⟩ <;>
    norm_num [projectCellToScreen, isInBars, drawVertTexCoord,
      finalScaleX, finalScaleY, fitScaleX, fitScaleY,
      mixQ, tFactor, smoothstepQ, clampQ, transitionZoom, windowAspect, gridAspect,
      s2bug, abs_of_nonneg, abs_of_nonpos, Prod.ext_iff]

/-- The camera state for the zoom-to-cursor counterexample: 800x400 window,
200x200 grid, identity pan, zoom 1. -/
def s3bug : RendererState := ⟨800, 400, 200, 200, 0, 0, 1, 20⟩

/-- C3 counterexample: with window 800x400 and grid 200x200 (aspects differ),
the inverse transform puts screen point (500,200) at cell (150,100); after
zoomAt(500, 200, 2) - factor 2 is inside [0.5, 2.0] - the same screen point
maps to cell (137,100), a 13-cell jump, far beyond one cell of
floor-rounding tolerance. -/
theorem zoomAt_cursorCell_shifts :
    mouseCell_head s3bug 500 200 = some (150, 100) ∧
    mouseCell_head (zoomAt_head s3bug 500 200 2) 500 200 = some (137, 100) ∧
    ¬ (((150 : ℤ) - 137).natAbs ≤ 1) := by
  refine ⟨?_, ?_, by norm_num⟩ <;>
    norm_num [mouseCell_head, screenToTextureCoords_head, zoomAt_head, fitScaleX,
      fitScaleY, windowAspect, gridAspect, s3bug, truncInt, abs_of_nonneg,
      abs_of_nonpos]

theorem fitScaleX_zoomAt (s : RendererState) (sx sy f : ℚ) :
    fitScaleX (zoomAt_head s sx sy f) = fitScaleX s := rfl

theorem fitScaleY_zoomAt (s : RendererState) (sx sy f : ℚ) :
    fitScaleY (zoomAt_head s sx sy f) = fitScaleY s := rfl

theorem zoomAt_head_windowWidth (s : RendererState) (sx sy f : ℚ) :
    (zoomAt_head s sx sy f).windowWidth = s.windowWidth := rfl

theorem zoomAt_head_windowHeight (s : RendererState) (sx sy f : ℚ) :
    (zoomAt_head s sx sy f).windowHeight = s.windowHeight := rfl

theorem zoomAt_head_gridW (s : RendererState) (sx sy f : ℚ) :
    (zoomAt_head s sx sy f).GRID_WIDTH = s.GRID_WIDTH := rfl

theorem zoomAt_head_gridH (s : RendererState) (sx sy f : ℚ) :
    (zoomAt_head s sx sy f).GRID_HEIGHT = s.GRID_HEIGHT := rfl

theorem zoomAt_head_zoom (s : RendererState) (sx sy f : ℚ) :
    (zoomAt_head s sx sy f).zoom = max (1/10) (min (s.zoom * f) s.maxZoom) := rfl

theorem zoomAt_head_panX (s : RendererState) (sx sy f : ℚ) :
    (zoomAt_head s sx sy f).panX = s.panX +
      (sx / (s.windowWidth : ℚ) / s.zoom + s.panX -
        (sx / (s.windowWidth : ℚ) / max (1/10) (min (s.zoom * f) s.maxZoom) + s.panX)) := rfl

theorem zoomAt_head_panY (s : RendererState) (sx sy f : ℚ) :
    (zoomAt_head s sx sy f).panY = s.panY +
      (((s.windowHeight : ℚ) - sy) / (s.windowHeight : ℚ) / s.zoom + s.panY -
        (((s.windowHeight : ℚ) - sy) / (s.windowHeight : ℚ) /
          max (1/10) (min (s.zoom * f) s.maxZoom) + s.panY)) := rfl

/-- C3 (amended): when window aspect equals grid aspect (fitScale = (1,1)),
the grid cell of the inverse transform at a screen point is exactly unchanged
across Renderer::zoomAt - any factor, including clamped ones. -/
theorem zoomAt_cursorCell_invariant_of_aspect_eq (s : RendererState) (sx sy f : ℚ)
    (hww : 0 < s.windowWidth) (hwh : 0 < s.windowHeight)
    (hgw : 0 < s.GRID_WIDTH) (hgh : 0 < s.GRID_HEIGHT)
    (hasp : windowAspect s = gridAspect s) (hz : s.zoom ≠ 0) :
    mouseCell_head (zoomAt_head s sx sy f) sx sy = mouseCell_head s sx sy := by
  have hga := gridAspect_pos s hgw hgh
  have hfx := fitScaleX_eq_one_of_aspect_eq s hasp
  have hfy := fitScaleY_eq_one_of_aspect_eq s hga hasp
  have hwwQ : (s.windowWidth : ℚ) ≠ 0 := by positivity
  have hwhQ : (s.windowHeight : ℚ) ≠ 0 := by positivity
  have hz2 : max (1/10 : ℚ) (min (s.zoom * f) s.maxZoom) ≠ 0 :=
    ne_of_gt (lt_of_lt_of_le (by norm_num) (le_max_left _ _))
  have hst : screenToTextureCoords_head (zoomAt_head s sx sy f) sx sy
      = screenToTextureCoords_head s sx sy := by
    simp only [screenToTextureCoords_head]
    rw [zoomAt_head_windowWidth, zoomAt_head_windowHeight, fitScaleX_zoomAt,
      fitScaleY_zoomAt, zoomAt_head_zoom, zoomAt_head_panX, zoomAt_head_panY]
    by_cases hrej : |sx / (s.windowWidth : ℚ) * 2 - 1| > |fitScaleX s| ∨
        |1 - sy / (s.windowHeight : ℚ) * 2| > |fitScaleY s|
    · rw [if_pos hrej, if_pos hrej]
    · rw [if_neg hrej, if_neg hrej]
      rw [Prod.ext_iff]
      constructor
      · show _ / max (1/10) (min (s.zoom * f) s.maxZoom) + _ = _
        rw [hfx]
        field_simp
        ring
      · show _ / max (1/10) (min (s.zoom * f) s.maxZoom) + _ = _
        rw [hfy]
        field_simp
        ring
  unfold mouseCell_head
  rw [hst, zoomAt_head_gridW, zoomAt_head_gridH]

/-- C3 witness: square window and grid with nonzero pan, zoom 2, factor 3/2:
the cell under screen point (100, 300) is unchanged by zoomAt. -/
theorem zoomAt_cursorCell_invariant_witness :
    mouseCell_head (zoomAt_head ⟨800, 800, 200, 200, 1/10, -1/5, 2, 20⟩ 100 300 (3/2))
        100 300
      = mouseCell_head ⟨800, 800, 200, 200, 1/10, -1/5, 2, 20⟩ 100 300 :=
  zoomAt_cursorCell_invariant_of_aspect_eq ⟨800, 800, 200, 200, 1/10, -1/5, 2, 20⟩
    100 300 (3/2) (by norm_num) (by norm_num) (by norm_num) (by norm_num)
    (by norm_num [windowAspect, gridAspect]) (by norm_num)

/-- GL_REPEAT + GL_NEAREST addressing of a texel-center coordinate: looking
up ((k + 1/2) / W) wraps to texel k mod W. -/
theorem floor_fract_half (W : ℕ) (hW : 0 < W) (k : ℤ) :
    Int.floor (Int.fract (((k : ℚ) + 1/2) / (W : ℚ)) * (W : ℚ)) = k % (W : ℤ) := by
  have hWQ : (0:ℚ) < (W : ℚ) := by exact_mod_cast hW
  have hW0 : (W : ℚ) ≠ 0 := ne_of_gt hWQ
  have hWZ : ((W : ℕ) : ℤ) ≠ 0 := by exact_mod_cast hW.ne'
  have hm0 : 0 ≤ k % (W : ℤ) := Int.emod_nonneg k hWZ
  have hmW : k % (W : ℤ) < (W : ℤ) := Int.emod_lt_of_pos k (by exact_mod_cast hW)
  have hk : (W : ℤ) * (k / (W : ℤ)) + k % (W : ℤ) = k := Int.ediv_add_emod k (W : ℤ)
  have hkQ : (W : ℚ) * ((k / (W : ℤ) : ℤ) : ℚ) + ((k % (W : ℤ) : ℤ) : ℚ) = (k : ℚ) := by
    exact_mod_cast congrArg (fun z : ℤ => (z : ℚ)) hk
  have hdecomp : ((k : ℚ) + 1/2) / (W : ℚ)
      = ((k / (W : ℤ) : ℤ) : ℚ) + (((k % (W : ℤ) : ℤ) : ℚ) + 1/2) / (W : ℚ) := by
    rw [← hkQ]
    field_simp
    ring
  have hr0 : 0 ≤ (((k % (W : ℤ) : ℤ) : ℚ) + 1/2) / (W : ℚ) := by
    apply div_nonneg _ hWQ.le
    have h0 : (0:ℚ) ≤ ((k % (W : ℤ) : ℤ) : ℚ) := by exact_mod_cast hm0
    linarith
  have hr1 : (((k % (W : ℤ) : ℤ) : ℚ) + 1/2) / (W : ℚ) < 1 := by
    rw [div_lt_one hWQ]
    have h1 : k % (W : ℤ) + 1 ≤ (W : ℤ) := Int.lt_iff_add_one_le.mp hmW
    have h2 : ((k % (W : ℤ) : ℤ) : ℚ) + 1 ≤ (W : ℚ) := by exact_mod_cast h1
    linarith
  rw [hdecomp, Int.fract_int_add, Int.fract_eq_self.mpr ⟨hr0, hr1⟩,
    div_mul_cancel₀ _ hW0, add_comm, Int.floor_add_int]
  norm_num

/-- A neighbor sample of shaders/compute.frag lands on the toroidally wrapped
cell: v_texCoord + (dx,dy)*pixel reads cell ((x+dx) mod W, (y+dy) mod H). -/
theorem getCellState_wrap (W H : ℕ) (hW : 0 < W) (hH : 0 < H) (b : ℕ → ℕ → ℚ)
    (x y : ℕ) (dx dy : ℤ) :
    sampleAt W H b x y dx dy
      = b (wrapIdx W ((x : ℤ) + dx)) (wrapIdx H ((y : ℤ) + dy)) := by
  unfold sampleAt
  have hWQ : (W : ℚ) ≠ 0 := by positivity
  have hHQ : (H : ℚ) ≠ 0 := by positivity
  have hcx : fragTexCoord W x + (dx : ℚ) * (1 / (W : ℚ))
      = ((((x : ℤ) + dx : ℤ) : ℚ) + 1/2) / (W : ℚ) := by
    unfold fragTexCoord
    push_cast
    field_simp
    ring
  have hcy : fragTexCoord H y + (dy : ℚ) * (1 / (H : ℚ))
      = ((((y : ℤ) + dy : ℤ) : ℚ) + 1/2) / (H : ℚ) := by
    unfold fragTexCoord
    push_cast
    field_simp
    ring
  rw [hcx, hcy]
  unfold getCellState wrapIdx
  rw [floor_fract_half W hW, floor_fract_half H hH]

/-- The center sample of shaders/compute.frag reads the fragment's own cell. -/
theorem getCellState_center (W H : ℕ) (hW : 0 < W) (hH : 0 < H) (b : ℕ → ℕ → ℚ)
    (x y : ℕ) (hx : x < W) (hy : y < H) :
    getCellState W H b (fragTexCoord W x) (fragTexCoord H y) = b x y := by
  have hcx : fragTexCoord W x = (((x : ℤ) : ℚ) + 1/2) / (W : ℚ) := by
    unfold fragTexCoord
    norm_num
  have hcy : fragTexCoord H y = (((y : ℤ) : ℚ) + 1/2) / (H : ℚ) := by
    unfold fragTexCoord
    norm_num
  rw [hcx, hcy]
  unfold getCellState
  rw [floor_fract_half W hW, floor_fract_half H hH]
  rw [Int.emod_eq_of_lt (by positivity) (by exact_mod_cast hx)]
  rw [Int.emod_eq_of_lt (by positivity) (by exact_mod_cast hy)]
  rw [Int.toNat_natCast, Int.toNat_natCast]

/-- x itself is a fixed point of toroidal wrapping when x < N. -/
theorem wrapIdx_self (N : ℕ) (x : ℕ) (h : x < N) : wrapIdx N (x : ℤ) = x := by
  unfold wrapIdx
  rw [Int.emod_eq_of_lt (by positivity) (by exact_mod_cast h), Int.toNat_natCast]

/-- The int cast of a 0/1 indicator is the corresponding integer indicator. -/
theorem truncInt_indicator (c : Prop) [Decidable c] :
    truncInt (if c then (1:ℚ) else 0) = if c then 1 else 0 := by
  by_cases h : c
  · norm_num [truncInt, h]
  · norm_num [truncInt, h]

set_option maxHeartbeats 2000000 in
/-- C5: the compute pass of shaders/compute.frag implements the toroidal
Moore-neighborhood rule of the spec at every cell, edges and corners
included: for a 0/1 board, the new state is alive iff the cell is alive with
2 or 3 wrapped neighbors, or dead with exactly 3 (the shader counts all nine
samples and subtracts the center).  The pass reads only `b` and is a pure
function of it, so the current buffer is untouched and the result is
deterministic. -/
theorem computeFrag_implements_life_rule (W H : ℕ) (hW : 0 < W) (hH : 0 < H)
    (b : ℕ → ℕ → ℚ) (bb : ℕ → ℕ → Bool)
    (hb : ∀ i j, b i j = if bb i j then 1 else 0)
    (x y : ℕ) (hx : x < W) (hy : y < H) :
    computeFragMain W H b x y
      = if lifeNext (bb x y) (specNeighbors W H bb x y) then 1 else 0 := by
  simp only [computeFragMain]
  simp only [getCellState_wrap W H hW hH b x y,
    getCellState_center W H hW hH b x y hx hy]
  simp only [hb, truncInt_indicator, add_zero, wrapIdx_self W x hx, wrapIdx_self H y hy,
    Int.cast_zero, Int.cast_one, Int.cast_neg, ← sub_eq_add_neg,
    specNeighbors, specAlive, lifeNext]
  cases hbb : bb x y
  case false => norm_num
  case true =>
    norm_num
    split_ifs <;> first | rfl | omega

/-- A 3x3 test board holding a full row of live cells at j = 1. -/
def rowBoard : ℕ → ℕ → Bool := fun _ j => j == 1

/-- The same board as the float texture the shader reads. -/
def rowBoardTex : ℕ → ℕ → ℚ := fun i j => if rowBoard i j then 1 else 0

/-- C5 witness: on the 3x3 torus, the live cell (1,1) of the row has two live
wrapped neighbors and survives: the shader output is 1, as the rule demands. -/
theorem computeFrag_life_rule_witness : computeFragMain 3 3 rowBoardTex 1 1 = 1 := by
  have h := computeFrag_implements_life_rule 3 3 (by norm_num) (by norm_num)
    rowBoardTex rowBoard (fun i j => rfl) 1 1 (by norm_num) (by norm_num)
  rw [h]
  norm_num [lifeNext, specNeighbors, specAlive, wrapIdx, rowBoard,
    show ((2:ℤ).toNat = 2) from rfl, show ((1:ℤ).toNat = 1) from rfl,
    show ((0:ℤ).toNat = 0) from rfl]
